import Mathlib

/-!
Verification development for the PixivDatasetUtilsForImageScoring pipeline.

The definitions below are a shallow embedding of the Python sources:

* src/ResizeAndToLMDB.py - the batched ingestion pipeline
  (collect_image_files, collect_all_image_files, parse_json with its inner
  parse_datetime, store_metadata_to_db, process_and_store, the filename
  regex `pattern`);
* src/ResizeImageWithAspectRatio.py - resize_with_aspect_ratio;
* src/CreateMetadataSqlite.py - its parse_json shares the field projection
  embedded here.

Machine integers are modelled as Nat/Int; Python floats in
resize_with_aspect_ratio are modelled as exact rationals; fallible code
returns Option/Except.  Filesystem and store effects are modelled by
explicit state passing plus an event trace.  All definitions are structural
recursions so that concrete runs evaluate inside the kernel.
-/

/-! ## Small string helpers (kernel-reducible replacements for the library
string functions, restricted to the ASCII alphabet that the sources use) -/

/-- ASCII case folding of one character (Python str.lower restricted to the
ASCII range, which covers the filename and extension alphabet). -/
def asciiLower (c : Char) : Char :=
  if 'A' ≤ c && c ≤ 'Z' then Char.ofNat (c.toNat + 32) else c

/-- Python s.lower() for ASCII strings, as a character list. -/
def lowerChars (s : String) : List Char :=
  s.data.map asciiLower

/-- List-level suffix test (str.endswith). -/
def endsWithL (cs suffix : List Char) : Bool :=
  suffix.isSuffixOf cs

/-- os.path.basename for POSIX-style paths: the part after the last slash. -/
def basename (p : String) : String :=
  String.mk (p.data.foldl (fun acc c => if c = '/' then [] else acc ++ [c]) [])

/-- VALID_EXTS from src/ResizeAndToLMDB.py line 20: lowercased name ends with
one of .jpg / .jpeg / .png (str.endswith with a tuple of suffixes). -/
def hasValidExt (name : String) : Bool :=
  let s := lowerChars name
  endsWithL s ".jpg".data || endsWithL s ".jpeg".data || endsWithL s ".png".data

/-! ## The filename identifier pattern

src/ResizeAndToLMDB.py line 22:
  pattern = re.compile(r'^(?P<id>\d{6,10})_p\d+\.(jpg|jpeg|png)$', re.IGNORECASE)

Because a digit run cannot contain '_' or '.', the regex (with backtracking)
matches exactly: 6..10 digits, then "_p", then at least one digit, then a dot
and one of the three extensions, case-insensitively, spanning the whole
string.  IGNORECASE only affects letters, so matching the lowercased string
against the lowercase pattern is equivalent. -/

/-- The extension alternative (jpg|jpeg|png) of the regex, on lowercased
characters. -/
def extAlternative (cs : List Char) : Bool :=
  cs == ['j', 'p', 'g'] || cs == ['j', 'p', 'e', 'g'] || cs == ['p', 'n', 'g']

/-- pattern.match(file_name) from src/ResizeAndToLMDB.py lines 22 and 232,
as a Bool (the pipeline only tests whether a match exists). -/
def pattern_match (s : String) : Bool :=
  let cs := lowerChars s
  let ds := cs.takeWhile Char.isDigit
  let rest := cs.drop ds.length
  (6 ≤ ds.length && ds.length ≤ 10) &&
    match rest with
    | '_' :: 'p' :: rest2 =>
      let ds2 := rest2.takeWhile Char.isDigit
      let rest3 := rest2.drop ds2.length
      (1 ≤ ds2.length) &&
        match rest3 with
        | '.' :: ext => extAlternative ext
        | _ => false
    | _ => false

/-! ## AssetScanner: collect_image_files and collect_all_image_files -/

/-- One entry of os.scandir: a name plus whether it is a regular file. -/
structure DirEntry where
  name : String
  isFile : Bool

/-- collect_image_files from src/ResizeAndToLMDB.py lines 73-84: scan one
directory level, keep regular files whose lowercased name ends with a valid
image extension, and join each kept name onto the root.  The os.scandir
result is passed in as the list of entries of root_dir. -/
def collect_image_files (root_dir : String) (entries : List DirEntry) : List String :=
  entries.foldl
    (fun files entry =>
      if entry.isFile && hasValidExt entry.name then
        files ++ [root_dir ++ "/" ++ entry.name]
      else files)
    []

/-- A directory tree, for Path.rglob. -/
inductive FSTree where
  | file (name : String)
  | dir (name : String) (children : List FSTree)

/-- Path.rglob with a pattern of the shape "*.ext": every file anywhere under
the tree whose name ends with the given suffix (glob matching is
case-sensitive on POSIX).  Returns the matching names. -/
def rglob (suffix : String) : FSTree → List String
  | FSTree.file n => if endsWithL n.data suffix.data then [n] else []
  | FSTree.dir _ cs => (cs.attach.map (fun c => rglob suffix c.1)).flatten
decreasing_by
  have h := List.sizeOf_lt_of_mem c.2
  simp only [FSTree.dir.sizeOf_spec]
  omega

/-- A Python iterable value as it occurs in collect_all_image_files: either a
generator (what Path.rglob returns) or a list. -/
inductive PyIterable where
  | generator (items : List String)
  | pylist (items : List String)

/-- Python list(...) applied to an iterable: materializes it. -/
def pyListOf : PyIterable → PyIterable
  | PyIterable.generator xs => PyIterable.pylist xs
  | PyIterable.pylist xs => PyIterable.pylist xs

/-- Python + on these values: list + list concatenates; a generator on either
side raises TypeError (generators do not implement +). -/
def pyAdd : PyIterable → PyIterable → Except String PyIterable
  | PyIterable.pylist a, PyIterable.pylist b => Except.ok (PyIterable.pylist (a ++ b))
  | _, _ => Except.error "TypeError: unsupported operand type(s) for +"

/-- The items of an iterable value. -/
def pyItems : PyIterable → List String
  | PyIterable.generator xs => xs
  | PyIterable.pylist xs => xs

/-- collect_all_image_files from src/ResizeAndToLMDB.py lines 86-100.  The
body evaluates
  list(path.rglob("*.png") + list(path.rglob("*.jpg")))
where path.rglob(...) is a generator and list(path.rglob("*.jpg")) is a list;
the + of a generator and a list raises TypeError before the outer list() is
applied, and the except branch logs the error and returns None. -/
def collect_all_image_files (root : FSTree) : Option (List String) :=
  match pyAdd (PyIterable.generator (rglob ".png" root))
      (pyListOf (PyIterable.generator (rglob ".jpg" root))) with
  | Except.ok v => some (pyItems (pyListOf v))
  | Except.error _ => none

/-! ## Batching: tf.data Dataset.batch

src/ResizeAndToLMDB.py line 215: ds.batch(batch_size) groups the (order
preserving) stream into consecutive batches of batch_size elements, the last
batch possibly smaller, and never produces an empty batch.  The fuel
argument makes the recursion structural; fuel = length of the list is always
enough because every step consumes at least one element. -/

/-- Fuelled chunking; see chunks. -/
def chunksFuel (B : Nat) : Nat → List α → List (List α)
  | _, [] => []
  | 0, _ :: _ => []
  | fuel + 1, a :: rest => (a :: rest).take B :: chunksFuel B fuel ((a :: rest).drop B)

/-- Consecutive chunks of size B (last chunk possibly smaller, no empty
chunks); the batching performed by ds.batch(batch_size). -/
def chunks (B : Nat) (l : List α) : List (List α) :=
  if B = 0 then [] else chunksFuel B l.length l

theorem chunksFuel_fuel_irrelevant (B : Nat) (hB : B ≠ 0) :
    ∀ (f g : Nat) (l : List α), l.length ≤ f → l.length ≤ g →
      chunksFuel B f l = chunksFuel B g l := by
  intro f
  induction f with
  | zero =>
    intro g l hf _
    match l with
    | [] => cases g <;> rfl
    | a :: rest => simp at hf
  | succ f ih =>
    intro g l hf hg
    match l with
    | [] => cases g <;> rfl
    | a :: rest =>
      match g with
      | 0 => simp at hg
      | g + 1 =>
        simp only [chunksFuel]
        congr 1
        apply ih
        · simp only [List.length_drop, List.length_cons] at *
          omega
        · simp only [List.length_drop, List.length_cons] at *
          omega

theorem chunks_nil (B : Nat) : chunks B ([] : List α) = [] := by
  simp [chunks, chunksFuel]

theorem chunks_cons (B : Nat) (hB : B ≠ 0) (a : α) (rest : List α) :
    chunks B (a :: rest) = (a :: rest).take B :: chunks B ((a :: rest).drop B) := by
  simp only [chunks, if_neg hB, List.length_cons, chunksFuel]
  congr 1
  apply chunksFuel_fuel_irrelevant B hB
  · simp only [List.length_drop, List.length_cons]
    omega
  · exact Nat.le_refl _

/-! ## JSON values

json.load output, as used by parse_json: objects are association lists
(sidecar objects are assumed to have distinct keys), numbers are modelled as
integers (the sidecar schema only carries integral numbers), null is the
Python value None. -/

/-- A parsed JSON value / the Python object json.load returns. -/
inductive JVal where
  | null
  | bool (b : Bool)
  | num (n : Int)
  | str (s : String)
  | arr (xs : List JVal)
  | obj (kvs : List (String × JVal))

/-- Key lookup in an object's association list. -/
def lookupJ : List (String × JVal) → String → Option JVal
  | [], _ => none
  | (k2, v) :: rest, k => if k2 == k then some v else lookupJ rest k

/-- Python dict.get(k, d): the stored value when the key is present (a stored
JSON null is the Python value None, i.e. JVal.null), the default otherwise. -/
def jget (kvs : List (String × JVal)) (k : String) (d : JVal) : JVal :=
  (lookupJ kvs k).getD d

/-- Python dict.get(k) - absent keys give None, which json maps to null. -/
def jgetN (kvs : List (String × JVal)) (k : String) : JVal :=
  jget kvs k JVal.null

/-- Python truthiness of a json-loaded value (None, "", 0, [], {} and False
are falsy). -/
def pyTruthy : JVal → Bool
  | JVal.null => false
  | JVal.bool b => b
  | JVal.num n => n != 0
  | JVal.str s => s != ""
  | JVal.arr xs => !xs.isEmpty
  | JVal.obj kvs => !kvs.isEmpty

/-- The elements of a JSON array when they are all strings. -/
def asStrList : List JVal → Option (List String)
  | [] => some []
  | JVal.str s :: rest =>
    match asStrList rest with
    | some ss => some (s :: ss)
    | none => none
  | _ :: _ => none

/-- Python sep.join(v) on a json-loaded value: joins a list of strings; a
string joins its characters; a dict joins its keys; any other value (or a
list containing a non-string) raises TypeError. -/
def pyJoin (sep : String) : JVal → Except String String
  | JVal.arr xs =>
    match asStrList xs with
    | some ss => Except.ok (String.intercalate sep ss)
    | none => Except.error "TypeError: sequence item: expected str instance"
  | JVal.str s => Except.ok (String.intercalate sep (s.data.map (fun c => String.mk [c])))
  | JVal.obj kvs => Except.ok (String.intercalate sep (kvs.map (fun kv => kv.1)))
  | _ => Except.error "TypeError: can only join an iterable"

/-! ## datetime.fromisoformat / isoformat

Model of the CPython datetime methods used by parse_datetime, over the
ISO-8601 core grammar accepted by datetime.fromisoformat (CPython 3.7-3.10):
  YYYY-MM-DD[<any sep char>HH[:MM[:SS[.fff or .ffffff]]][(+ or -)HH:MM]]
with range validation; the fractional part is accepted and discarded because
isoformat(timespec='seconds') truncates it.  The timezone offset is kept in
minutes east of UTC. -/

/-- A Python datetime value, with an optional fixed offset in minutes. -/
structure PyDatetime where
  year : Nat
  month : Nat
  day : Nat
  hour : Nat
  minute : Nat
  second : Nat
  tzoffset : Option Int
deriving DecidableEq

/-- Numeric value of a digit character. -/
def digitVal (c : Char) : Nat := c.toNat - 48

/-- Read exactly two digits. -/
def read2 : List Char → Option (Nat × List Char)
  | a :: b :: rest =>
    if a.isDigit && b.isDigit then some (10 * digitVal a + digitVal b, rest) else none
  | _ => none

/-- Read exactly four digits. -/
def read4 : List Char → Option (Nat × List Char)
  | a :: b :: c :: d :: rest =>
    if a.isDigit && b.isDigit && c.isDigit && d.isDigit then
      some (1000 * digitVal a + 100 * digitVal b + 10 * digitVal c + digitVal d, rest)
    else none
  | _ => none

/-- Gregorian leap year. -/
def isLeap (y : Nat) : Bool := y % 4 == 0 && (y % 100 != 0 || y % 400 == 0)

/-- Days in a month. -/
def daysInMonth (y m : Nat) : Nat :=
  if m == 2 then (if isLeap y then 29 else 28)
  else if m == 4 || m == 6 || m == 9 || m == 11 then 30
  else 31

/-- Optional fractional seconds: a dot followed by exactly 3 or 6 digits
(the two widths fromisoformat accepts); the value is discarded. -/
def readFrac : List Char → Option (List Char)
  | '.' :: rest =>
    let ds := rest.takeWhile Char.isDigit
    if ds.length == 3 || ds.length == 6 then some (rest.drop ds.length) else none
  | rest => some rest

/-- The time part HH[:MM[:SS[.frac]]]; returns (hour, minute, second, rest). -/
def readTime (cs : List Char) : Option (Nat × Nat × Nat × List Char) :=
  match read2 cs with
  | none => none
  | some (hh, r1) =>
    match r1 with
    | ':' :: r2 =>
      match read2 r2 with
      | none => none
      | some (mm, r3) =>
        match r3 with
        | ':' :: r4 =>
          match read2 r4 with
          | none => none
          | some (ss, r5) =>
            match readFrac r5 with
            | none => none
            | some r6 => some (hh, mm, ss, r6)
        | _ => some (hh, mm, 0, r3)
    | _ => some (hh, 0, 0, r1)

/-- The optional offset (+ or -)HH:MM; returns the offset in minutes and the
rest.  An empty rest means a naive datetime. -/
def readOffset : List Char → Option (Option Int × List Char)
  | [] => some (none, [])
  | c :: rest =>
    if c == '+' || c == '-' then
      match read2 rest with
      | some (oh, r1) =>
        match r1 with
        | ':' :: r2 =>
          match read2 r2 with
          | some (om, r3) =>
            if oh ≤ 23 && om ≤ 59 then
              let m : Int := oh * 60 + om
              some (some (if c == '-' then -m else m), r3)
            else none
          | none => none
        | _ => none
      | none => none
    else none

/-- datetime.fromisoformat (None on ValueError). -/
def fromisoformat (s : String) : Option PyDatetime :=
  match read4 s.data with
  | none => none
  | some (y, r1) =>
    match r1 with
    | '-' :: r2 =>
      match read2 r2 with
      | none => none
      | some (mo, r3) =>
        match r3 with
        | '-' :: r4 =>
          match read2 r4 with
          | none => none
          | some (d, r5) =>
            if 1 ≤ y && y ≤ 9999 && 1 ≤ mo && mo ≤ 12 && 1 ≤ d && d ≤ daysInMonth y mo then
              match r5 with
              | [] => some ⟨y, mo, d, 0, 0, 0, none⟩
              | _ :: r6 =>
                match readTime r6 with
                | none => none
                | some (hh, mm, ss, r7) =>
                  if hh ≤ 23 && mm ≤ 59 && ss ≤ 59 then
                    match readOffset r7 with
                    | some (off, []) => some ⟨y, mo, d, hh, mm, ss, off⟩
                    | _ => none
                  else none
            else none
        | _ => none
    | _ => none

/-- Two fixed decimal digits. -/
def pad2 (n : Nat) : String :=
  String.mk [Nat.digitChar (n / 10 % 10), Nat.digitChar (n % 10)]

/-- Four fixed decimal digits. -/
def pad4 (n : Nat) : String :=
  String.mk [Nat.digitChar (n / 1000 % 10), Nat.digitChar (n / 100 % 10),
    Nat.digitChar (n / 10 % 10), Nat.digitChar (n % 10)]

/-- The date-time part of datetime.isoformat(sep=' ', timespec='seconds'):
the bare YYYY-MM-DD HH:MM:SS form, without any offset. -/
def PyDatetime.basicFormat (dt : PyDatetime) : String :=
  pad4 dt.year ++ "-" ++ pad2 dt.month ++ "-" ++ pad2 dt.day ++ " " ++
    pad2 dt.hour ++ ":" ++ pad2 dt.minute ++ ":" ++ pad2 dt.second

/-- The offset suffix isoformat appends for an aware datetime: empty for a
naive one, (+ or -)HH:MM otherwise. -/
def offsetSuffix : Option Int → String
  | none => ""
  | some m =>
    (if m < 0 then "-" else "+") ++ pad2 (m.natAbs / 60) ++ ":" ++ pad2 (m.natAbs % 60)

/-- datetime.isoformat(sep=' ', timespec='seconds'): the bare form plus the
offset suffix when the datetime is aware. -/
def PyDatetime.isoformat (dt : PyDatetime) : String :=
  dt.basicFormat ++ offsetSuffix dt.tzoffset

/-! ## str.replace -/

/-- Fuelled replacement; every step consumes at least one input character,
so fuel = input length is always enough. -/
def pyReplaceFuel (pat rep : List Char) : Nat → List Char → List Char
  | _, [] => []
  | 0, cs => cs
  | fuel + 1, c :: rest =>
    if !pat.isEmpty && pat.isPrefixOf (c :: rest) then
      rep ++ pyReplaceFuel pat rep fuel ((c :: rest).drop pat.length)
    else
      c :: pyReplaceFuel pat rep fuel rest

/-- Python s.replace(pat, rep) for a non-empty pattern: replaces every
non-overlapping occurrence, scanning left to right. -/
def pyReplace (s pat rep : String) : String :=
  String.mk (pyReplaceFuel pat.data rep.data s.data.length s.data)

/-- The inner parse_datetime of parse_json, src/ResizeAndToLMDB.py lines
153-158 (same body at src/CreateMetadataSqlite.py lines 95-100):
  datetime.fromisoformat(s.replace("Z", "+00:00")).isoformat(sep=' ',
  timespec='seconds') if s else None
inside a try/except that turns any error (ValueError from fromisoformat, or
AttributeError when the value is truthy but not a string) into None. -/
def parse_datetime (v : JVal) : Option String :=
  if pyTruthy v then
    match v with
    | JVal.str s => (fromisoformat (pyReplace s "Z" "+00:00")).map PyDatetime.isoformat
    | _ => none
  else none

/-! ## MetadataExtractor: parse_json

src/ResizeAndToLMDB.py lines 144-195 (the field projection is identical at
src/CreateMetadataSqlite.py lines 102-134).  The dict literal evaluates, in
order, expressions of three failure-prone shapes:
  metadata.get(k)                    - AttributeError unless metadata is a dict;
  metadata.get("user", {}).get(k)    - AttributeError when the stored user
                                       value is not a dict;
  ",".join(metadata.get("tags", [])) - TypeError unless the value is joinable.
Any of these exceptions is caught by the outer try and the whole record is
dropped (None); parse_datetime catches its own errors and degrades to None.
Since the only observable outcome of an exception is the None result, the
projection is modelled as a match cascade over the three failure points. -/

/-- The record parse_json builds (the dict stored by store_metadata_to_db).
Plain fields keep the json-loaded value (JVal.null is Python None); tags is
always a string once the join succeeded; the two timestamps are the
parse_datetime results. -/
structure MetadataRecord where
  id : JVal
  title : JVal
  type : JVal
  restrict : JVal
  user_name : JVal
  user_account : JVal
  tags : String
  create_date : Option String
  page_count : JVal
  width : JVal
  height : JVal
  sanity_level : JVal
  x_restrict : JVal
  total_view : JVal
  total_bookmarks : JVal
  is_bookmarked : JVal
  visible : JVal
  is_muted : JVal
  illust_ai_type : JVal
  illust_book_style : JVal
  num : JVal
  date : Option String
  rating : JVal
  suffix : JVal
  category : JVal
  subcategory : JVal
  url : JVal
  date_url : JVal
  filename : JVal
  extension : JVal

/-- parse_json of src/ResizeAndToLMDB.py lines 144-195.  The argument is the
json.load outcome for the sidecar file: none when the payload is not
parseable as JSON at all (the first try/except returns None), some v
otherwise. -/
def parse_json (payload : Option JVal) : Option MetadataRecord :=
  match payload with
  | none => none
  | some metadata =>
    match metadata with
    | JVal.obj kvs =>
      match jget kvs "user" (JVal.obj []) with
      | JVal.obj user =>
        match pyJoin "," (jget kvs "tags" (JVal.arr [])) with
        | Except.ok tags =>
          some {
            id := jgetN kvs "id"
            title := jgetN kvs "title"
            type := jgetN kvs "type"
            restrict := jgetN kvs "restrict"
            user_name := jgetN user "name"
            user_account := jgetN user "account"
            tags := tags
            create_date := parse_datetime (jgetN kvs "create_date")
            page_count := jgetN kvs "page_count"
            width := jgetN kvs "width"
            height := jgetN kvs "height"
            sanity_level := jgetN kvs "sanity_level"
            x_restrict := jgetN kvs "x_restrict"
            total_view := jgetN kvs "total_view"
            total_bookmarks := jgetN kvs "total_bookmarks"
            is_bookmarked := jgetN kvs "is_bookmarked"
            visible := jgetN kvs "visible"
            is_muted := jgetN kvs "is_muted"
            illust_ai_type := jgetN kvs "illust_ai_type"
            illust_book_style := jgetN kvs "illust_book_style"
            num := jgetN kvs "num"
            date := parse_datetime (jgetN kvs "date")
            rating := jgetN kvs "rating"
            suffix := jgetN kvs "suffix"
            category := jgetN kvs "category"
            subcategory := jgetN kvs "subcategory"
            url := jgetN kvs "url"
            date_url := jgetN kvs "date_url"
            filename := jgetN kvs "filename"
            extension := jgetN kvs "extension" }
        | Except.error _ => none
      | _ => none
    | _ => none

/-- The exact condition under which the field projection of parse_json
raises (and the record is dropped) for a payload that did parse as JSON:
the payload is not an object, or its user value is not an object, or its
tags value is not joinable. -/
def projFails (v : JVal) : Bool :=
  match v with
  | JVal.obj kvs =>
    (match jget kvs "user" (JVal.obj []) with
     | JVal.obj _ => false
     | _ => true) ||
    (match pyJoin "," (jget kvs "tags" (JVal.arr [])) with
     | Except.ok _ => false
     | Except.error _ => true)
  | _ => true

/-! ## The dual-store pipeline: process_and_store

src/ResizeAndToLMDB.py lines 211-262.  The filesystem, the LMDB blob store
and the SQLite relational store are modelled as explicit state; the
externally-visible durable actions are recorded in an event trace in
program order.  The tf.data stage (lines 213-216) maps preprocess_and_resize
over the paths in order and batches them; decoding/encoding is abstracted by
the env's encoded function (the claims under verification do not depend on
pixel content).  Per-item exceptions of the image codec are not modelled;
store_to_lmdb and store_metadata_to_db swallow their own store errors
(lines 140-141, 207-208). -/

/-- The environment a run executes against. -/
structure Env where
  /-- os.path.exists for the sidecar path (line 242). -/
  jsonOnDisk : String → Bool
  /-- json.load outcome for a sidecar path: none = unparsable payload. -/
  sidecar : String → Option JVal
  /-- whether txn.commit() succeeds for the given batch index (line 255). -/
  commitOk : Nat → Bool
  /-- the re-encoded PNG bytes for an image path (lines 237-238), opaque. -/
  encoded : String → String

/-- Durable, externally visible actions, in program order. -/
inductive Event where
  | putBlob (key : String)
  | sqlCommit (jsonPath : String)
  | removeSrc (path : String)
  | commitLmdb (batch : Nat)
  | abortLmdb (batch : Nat)
deriving DecidableEq

/-- The mutable state of a run: image files still on disk, the committed
blob store, the open write-transaction's pending puts, and the committed
relational rows. -/
structure PipeState where
  disk : List String
  lmdb : List (String × String)
  pending : List (String × String)
  db : List MetadataRecord

/-- SQLite INSERT OR REPLACE comparison on the primary-key value (filename
TEXT PRIMARY KEY): two equal TEXT or INTEGER values conflict; NULL conflicts
with nothing (SQLite permits multiple NULL primary keys). -/
def pkEq : JVal → JVal → Bool
  | JVal.str a, JVal.str b => a == b
  | JVal.num a, JVal.num b => a == b
  | _, _ => false

/-- store_metadata_to_db, src/ResizeAndToLMDB.py lines 198-208: one
INSERT OR REPLACE followed immediately by conn.commit(), so each record is
durably committed on its own, independently of the LMDB transaction. -/
def store_metadata_to_db (db : List MetadataRecord) (record : MetadataRecord) :
    List MetadataRecord :=
  (db.filter (fun r => !pkEq r.filename record.filename)) ++ [record]

/-- The body of the inner per-item loop, src/ResizeAndToLMDB.py lines
228-252: skip the item when the filename pattern does not match; otherwise
put the encoded image into the open LMDB transaction, upsert-and-commit the
sidecar record into SQLite when the sidecar exists and parses, and then
os.remove the source image (line 248) - all before the batch commit. -/
def processItem (env : Env) (acc : PipeState × List Event) (image_path : String) :
    PipeState × List Event :=
  let st := acc.1
  let evs := acc.2
  let file_name := basename image_path
  if pattern_match file_name then
    let st1 := { st with pending := st.pending ++ [(file_name, env.encoded image_path)] }
    let evs1 := evs ++ [Event.putBlob file_name]
    let json_path := image_path ++ ".json"
    let next :=
      if env.jsonOnDisk json_path then
        match parse_json (env.sidecar json_path) with
        | some record =>
          ({ st1 with db := store_metadata_to_db st1.db record },
            evs1 ++ [Event.sqlCommit json_path])
        | none => (st1, evs1)
      else (st1, evs1)
    ({ next.1 with disk := next.1.disk.erase image_path },
      next.2 ++ [Event.removeSrc image_path])
  else
    (st, evs)

/-- One batch, src/ResizeAndToLMDB.py lines 222-258: open a fresh write
transaction (line 226), run the item loop, then commit; on a commit error
the transaction is aborted and its pending puts are discarded (lines
254-258). -/
def processBatch (env : Env) (acc : PipeState × List Event) (b : Nat)
    (batch : List String) : PipeState × List Event :=
  let st0 := { acc.1 with pending := ([] : List (String × String)) }
  let run := batch.foldl (processItem env) (st0, acc.2)
  if env.commitOk b then
    ({ run.1 with lmdb := run.1.lmdb ++ run.1.pending, pending := [] },
      run.2 ++ [Event.commitLmdb b])
  else
    ({ run.1 with pending := ([] : List (String × String)) },
      run.2 ++ [Event.abortLmdb b])

/-- process_and_store, src/ResizeAndToLMDB.py lines 211-262: the image paths
are consumed in order in consecutive batches of batch_size. -/
def process_and_store (env : Env) (image_paths : List String) (batch_size : Nat) :
    PipeState × List Event :=
  ((chunks batch_size image_paths).enum).foldl
    (fun acc pair => processBatch env acc pair.1 pair.2)
    ({ disk := image_paths, lmdb := [], pending := [], db := [] }, [])

/-- Environment of a run in which no sidecar files exist and every LMDB
commit succeeds. -/
def envNoSidecarCommit : Env :=
  { jsonOnDisk := fun _ => false
    sidecar := fun _ => none
    commitOk := fun _ => true
    encoded := fun p => p }

/-- Environment of a run in which every image has a sidecar that parses to
the empty JSON object and every LMDB commit succeeds. -/
def envSidecarCommit : Env :=
  { jsonOnDisk := fun _ => true
    sidecar := fun _ => some (JVal.obj [])
    commitOk := fun _ => true
    encoded := fun p => p }

/-- Environment of a run in which every image has a sidecar that parses to
the empty JSON object and every LMDB commit throws. -/
def envSidecarAbort : Env :=
  { jsonOnDisk := fun _ => true
    sidecar := fun _ => some (JVal.obj [])
    commitOk := fun _ => false
    encoded := fun p => p }


/-! ## Structure of the batching -/

theorem chunks_ne_nil (B : Nat) (hB : B ≠ 0) (l : List α) (hl : l ≠ []) :
    chunks B l ≠ [] := by
  match l with
  | [] => exact absurd rfl hl
  | a :: rest =>
    rw [chunks_cons B hB]
    exact List.cons_ne_nil _ _

theorem chunks_flatten_fuel (B : Nat) (hB : B ≠ 0) :
    ∀ (n : Nat) (l : List α), l.length ≤ n → (chunks B l).flatten = l := by
  intro n
  induction n with
  | zero =>
    intro l hl
    match l with
    | [] => simp [chunks_nil]
    | a :: rest => simp at hl
  | succ n ih =>
    intro l hl
    match l with
    | [] => simp [chunks_nil]
    | a :: rest =>
      rw [chunks_cons B hB, List.flatten_cons,
        ih ((a :: rest).drop B) (by simp only [List.length_cons] at hl; simp only [List.length_drop, List.length_cons]; omega),
        List.take_append_drop]

theorem chunks_sizes_fuel (B : Nat) (hB : B ≠ 0) :
    ∀ (n : Nat) (l : List α), l.length ≤ n →
      ∀ c ∈ chunks B l, c ≠ [] ∧ c.length ≤ B := by
  intro n
  induction n with
  | zero =>
    intro l hl c hc
    match l with
    | [] => rw [chunks_nil] at hc; simp at hc
    | a :: rest => simp at hl
  | succ n ih =>
    intro l hl c hc
    match l with
    | [] => rw [chunks_nil] at hc; simp at hc
    | a :: rest =>
      rw [chunks_cons B hB] at hc
      rcases List.mem_cons.mp hc with h | h
      · subst h
        constructor
        · simp only [ne_eq, List.take_eq_nil_iff]
          intro hcon
          rcases hcon with h0 | h0
          · exact hB h0
          · exact List.cons_ne_nil _ _ h0
        · simp only [List.length_take]
          exact Nat.min_le_left _ _
      · exact ih ((a :: rest).drop B)
          (by simp only [List.length_cons] at hl; simp only [List.length_drop, List.length_cons]; omega) c h

theorem chunks_dropLast_fuel (B : Nat) (hB : B ≠ 0) :
    ∀ (n : Nat) (l : List α), l.length ≤ n →
      ∀ c ∈ (chunks B l).dropLast, c.length = B := by
  intro n
  induction n with
  | zero =>
    intro l hl c hc
    match l with
    | [] => rw [chunks_nil] at hc; simp at hc
    | a :: rest => simp at hl
  | succ n ih =>
    intro l hl c hc
    match l with
    | [] => rw [chunks_nil] at hc; simp at hc
    | a :: rest =>
      rw [chunks_cons B hB] at hc
      by_cases hd : (a :: rest).drop B = []
      · rw [hd, chunks_nil] at hc
        simp at hc
      · obtain ⟨b2, tl2, heq⟩ :=
          List.exists_cons_of_ne_nil (chunks_ne_nil B hB _ hd)
        rw [heq, List.dropLast_cons₂] at hc
        rcases List.mem_cons.mp hc with h | h
        · subst h
          have hlen : B < (a :: rest).length := by
            rcases Nat.lt_or_ge B (a :: rest).length with h' | h'
            · exact h'
            · exact absurd (List.drop_eq_nil_iff.mpr h') hd
          simp only [List.length_take]
          omega
        · have := ih ((a :: rest).drop B)
            (by simp only [List.length_cons] at hl; simp only [List.length_drop, List.length_cons]; omega) c
          rw [heq] at this
          exact this h

theorem chunks_getLast_fuel (B : Nat) (hB : B ≠ 0) :
    ∀ (n : Nat) (l : List α), l.length ≤ n → l ≠ [] →
      ∃ c, (chunks B l).getLast? = some c ∧
        c.length = (if l.length % B = 0 then B else l.length % B) := by
  intro n
  induction n with
  | zero =>
    intro l hl hne
    match l with
    | [] => exact absurd rfl hne
    | a :: rest => simp at hl
  | succ n ih =>
    intro l hl hne
    match l with
    | [] => exact absurd rfl hne
    | a :: rest =>
      rw [chunks_cons B hB]
      by_cases hd : (a :: rest).drop B = []
      · rw [hd, chunks_nil]
        refine ⟨(a :: rest).take B, rfl, ?_⟩
        have hle : (a :: rest).length ≤ B := List.drop_eq_nil_iff.mp hd
        have hpos : 0 < (a :: rest).length := by simp
        simp only [List.length_take]
        rcases Nat.lt_or_ge (a :: rest).length B with h' | h'
        · rw [Nat.mod_eq_of_lt h', if_neg (by omega)]
          omega
        · have hBeq : (a :: rest).length = B := by omega
          rw [hBeq, Nat.mod_self, if_pos rfl]
          omega
      · have hlt : B < (a :: rest).length := by
          rcases Nat.lt_or_ge B (a :: rest).length with h' | h'
          · exact h'
          · exact absurd (List.drop_eq_nil_iff.mpr h') hd
        obtain ⟨c, hc1, hc2⟩ := ih ((a :: rest).drop B)
          (by simp only [List.length_cons] at hl; simp only [List.length_drop, List.length_cons]; omega) hd
        obtain ⟨b2, tl2, heq⟩ :=
          List.exists_cons_of_ne_nil (chunks_ne_nil B hB _ hd)
        refine ⟨c, ?_, ?_⟩
        · rw [heq, List.getLast?_cons_cons, ← heq]
          exact hc1
        · rw [hc2, List.length_drop]
          have hmod : (a :: rest).length % B = ((a :: rest).length - B) % B :=
            Nat.mod_eq_sub_mod (Nat.le_of_lt hlt)
          rw [← hmod]

/-! ## Transformer: resize_with_aspect_ratio

src/ResizeImageWithAspectRatio.py lines 32-53.  PIL images are modelled as a
size plus a pixel function; the resampling filter (Image.BOX) is abstracted
as a parameter because the claims under verification only concern geometry.
Python float arithmetic is modelled as exact rational arithmetic; int()
truncation of the nonnegative products is Int.floor followed by toNat.
PIL images always have positive dimensions, so the ZeroDivisionError that
original_width = 0 would raise cannot occur; the theorems assume positive
source dimensions.  Python's // on the nonnegative difference
target - new equals Nat division. -/

/-- The colour of one pixel (an RGB triple). -/
abbrev Color := Nat × Nat × Nat

/-- A PIL image: a size and a pixel function. -/
structure PILImage where
  width : Nat
  height : Nat
  px : Nat → Nat → Color

/-- A resampling filter: given the source image and the requested size, the
pixel function of the resized image.  Stands for Image.BOX / RESIZE_FILTER. -/
abbrev Resampler := PILImage → Nat × Nat → Nat → Nat → Color

/-- img.resize(size, filter): an image of exactly the requested size whose
content is produced by the filter. -/
def PILImage.resize (img : PILImage) (size : Nat × Nat) (resample : Resampler) :
    PILImage :=
  { width := size.1, height := size.2, px := resample img size }

/-- Image.new("RGB", size, color): a constant image. -/
def imageNew (size : Nat × Nat) (color : Color) : PILImage :=
  { width := size.1, height := size.2, px := fun _ _ => color }

/-- base.paste(im, pos): pixels inside the pasted rectangle come from im,
the rest keep the base image's content. -/
def PILImage.paste (base im : PILImage) (pos : Nat × Nat) : PILImage :=
  let f : Nat → Nat → Color := fun x y =>
    if pos.1 ≤ x ∧ x < pos.1 + im.width ∧ pos.2 ≤ y ∧ y < pos.2 + im.height then
      im.px (x - pos.1) (y - pos.2)
    else base.px x y
  { base with px := f }

/-- ratio = min(target_width / original_width, target_height / original_height)
(line 40). -/
def scale_factor (img : PILImage) (target_size : Nat × Nat) : ℚ :=
  min ((target_size.1 : ℚ) / (img.width : ℚ)) ((target_size.2 : ℚ) / (img.height : ℚ))

/-- new_width = int(original_width * ratio) (line 41). -/
def new_width (img : PILImage) (target_size : Nat × Nat) : Nat :=
  (⌊(img.width : ℚ) * scale_factor img target_size⌋).toNat

/-- new_height = int(original_height * ratio) (line 42). -/
def new_height (img : PILImage) (target_size : Nat × Nat) : Nat :=
  (⌊(img.height : ℚ) * scale_factor img target_size⌋).toNat

/-- offset_x = (target_width - new_width) // 2 (line 49). -/
def offset_x (img : PILImage) (target_size : Nat × Nat) : Nat :=
  (target_size.1 - new_width img target_size) / 2

/-- offset_y = (target_height - new_height) // 2 (line 50). -/
def offset_y (img : PILImage) (target_size : Nat × Nat) : Nat :=
  (target_size.2 - new_height img target_size) / 2

/-- resize_with_aspect_ratio, src/ResizeImageWithAspectRatio.py lines 32-53. -/
def resize_with_aspect_ratio (resample : Resampler) (img : PILImage)
    (target_size : Nat × Nat) (bg_color : Color) : PILImage :=
  let resized_img := img.resize (new_width img target_size, new_height img target_size)
    resample
  let new_img := imageNew target_size bg_color
  new_img.paste resized_img (offset_x img target_size, offset_y img target_size)

theorem new_width_le (img : PILImage) (target_size : Nat × Nat)
    (hw : 0 < img.width) : new_width img target_size ≤ target_size.1 := by
  have hne : (img.width : ℚ) ≠ 0 := Nat.cast_ne_zero.mpr (Nat.pos_iff_ne_zero.mp hw)
  have h1 : (img.width : ℚ) * scale_factor img target_size ≤ (target_size.1 : ℚ) := by
    calc (img.width : ℚ) * scale_factor img target_size
        ≤ (img.width : ℚ) * ((target_size.1 : ℚ) / (img.width : ℚ)) :=
          mul_le_mul_of_nonneg_left (min_le_left _ _) (by positivity)
      _ = (target_size.1 : ℚ) := by field_simp
  have h3 : ⌊(img.width : ℚ) * scale_factor img target_size⌋ ≤ (target_size.1 : Int) := by
    calc ⌊(img.width : ℚ) * scale_factor img target_size⌋
        ≤ ⌊(target_size.1 : ℚ)⌋ := Int.floor_le_floor h1
      _ = (target_size.1 : Int) := Int.floor_natCast _
  exact Int.toNat_le.mpr h3

theorem new_height_le (img : PILImage) (target_size : Nat × Nat)
    (hh : 0 < img.height) : new_height img target_size ≤ target_size.2 := by
  have hne : (img.height : ℚ) ≠ 0 := Nat.cast_ne_zero.mpr (Nat.pos_iff_ne_zero.mp hh)
  have h1 : (img.height : ℚ) * scale_factor img target_size ≤ (target_size.2 : ℚ) := by
    calc (img.height : ℚ) * scale_factor img target_size
        ≤ (img.height : ℚ) * ((target_size.2 : ℚ) / (img.height : ℚ)) :=
          mul_le_mul_of_nonneg_left (min_le_right _ _) (by positivity)
      _ = (target_size.2 : ℚ) := by field_simp
  have h3 : ⌊(img.height : ℚ) * scale_factor img target_size⌋ ≤ (target_size.2 : Int) := by
    calc ⌊(img.height : ℚ) * scale_factor img target_size⌋
        ≤ ⌊(target_size.2 : ℚ)⌋ := Int.floor_le_floor h1
      _ = (target_size.2 : Int) := Int.floor_natCast _
  exact Int.toNat_le.mpr h3

/-! # The claims -/

/-- C1: the claim says no source image of a batch is deleted before both the
LMDB transaction and the relational upserts of the batch are durably
committed (deletion only in the Committed state).  The code violates it:
os.remove(image_path) runs inside the per-item loop (line 248), before
txn.commit() (line 255).  In the one-image run below the removeSrc event
occupies trace position 1, strictly before the commitLmdb event at
position 2, and the source is already gone from disk. -/
theorem source_removed_before_lmdb_commit :
    (process_and_store envNoSidecarCommit ["123456_p0.jpg"] 32).2 =
      [Event.putBlob "123456_p0.jpg", Event.removeSrc "123456_p0.jpg",
        Event.commitLmdb 0] ∧
    ((process_and_store envNoSidecarCommit ["123456_p0.jpg"] 32).2)[1]? =
      some (Event.removeSrc "123456_p0.jpg") ∧
    ((process_and_store envNoSidecarCommit ["123456_p0.jpg"] 32).2)[2]? =
      some (Event.commitLmdb 0) ∧
    (process_and_store envNoSidecarCommit ["123456_p0.jpg"] 32).1.disk = [] := by
  exact ⟨by decide, by decide, by decide, by decide⟩

/-- C2: the claim says a failed blob-store commit rolls back the batch's
relational upserts and leaves all source files on disk.  The code violates
it: in the run below txn.commit() throws and txn.abort() discards only the
LMDB puts; the SQLite row committed per-record by store_metadata_to_db is
retained (db has one row) and the already-removed source file is not
restored (disk is empty), so a subsequent run cannot rediscover it. -/
theorem failed_batch_keeps_upserts_and_deletions :
    (process_and_store envSidecarAbort ["123456_p0.jpg"] 32).1.lmdb = [] ∧
    (process_and_store envSidecarAbort ["123456_p0.jpg"] 32).1.pending = [] ∧
    (process_and_store envSidecarAbort ["123456_p0.jpg"] 32).1.db.length = 1 ∧
    (process_and_store envSidecarAbort ["123456_p0.jpg"] 32).1.disk = [] ∧
    (process_and_store envSidecarAbort ["123456_p0.jpg"] 32).2 =
      [Event.putBlob "123456_p0.jpg", Event.sqlCommit "123456_p0.jpg.json",
        Event.removeSrc "123456_p0.jpg", Event.abortLmdb 0] := by
  exact ⟨rfl, rfl, rfl, rfl, by decide⟩

/-- C3: the claim says the blob-store transaction is resolved before any
relational upsert of the batch is committed.  The code violates it:
store_metadata_to_db executes conn.commit() per record inside the item loop
(line 205), before txn.commit() resolves the LMDB transaction (line 255).
In the run below the sqlCommit event occupies trace position 1, strictly
before the commitLmdb event at position 3; a crash between the two leaves a
committed relational record whose blob was never committed. -/
theorem sql_commit_before_lmdb_resolution :
    (process_and_store envSidecarCommit ["123456_p0.jpg"] 32).2 =
      [Event.putBlob "123456_p0.jpg", Event.sqlCommit "123456_p0.jpg.json",
        Event.removeSrc "123456_p0.jpg", Event.commitLmdb 0] ∧
    ((process_and_store envSidecarCommit ["123456_p0.jpg"] 32).2)[1]? =
      some (Event.sqlCommit "123456_p0.jpg.json") ∧
    ((process_and_store envSidecarCommit ["123456_p0.jpg"] 32).2)[3]? =
      some (Event.commitLmdb 0) := by
  exact ⟨by decide, by decide, by decide⟩

theorem collect_image_files_go (root_dir : String) :
    ∀ (entries : List DirEntry) (acc : List String),
      entries.foldl
        (fun files entry =>
          if entry.isFile && hasValidExt entry.name then
            files ++ [root_dir ++ "/" ++ entry.name]
          else files) acc =
      acc ++ (entries.filter (fun e => e.isFile && hasValidExt e.name)).map
        (fun e => root_dir ++ "/" ++ e.name) := by
  intro entries
  induction entries with
  | nil => intro acc; simp
  | cons e rest ih =>
    intro acc
    by_cases hc : (e.isFile && hasValidExt e.name) = true
    · simp only [List.foldl_cons, List.filter_cons, hc, if_pos, List.map_cons]
      rw [ih]
      simp
    · simp only [List.foldl_cons, List.filter_cons, hc, if_neg, Bool.false_eq_true,
        ite_false]
      rw [ih]

/-- C4: the one-level scanner returns exactly the regular files at depth one
whose lowercased name has a recognized image extension (first conjunct); but
the unbounded-recursive scanner never returns that set - for every root tree
it returns None, because path.rglob("*.png") + list(path.rglob("*.jpg"))
adds a generator to a list, which raises TypeError and lands in the except
branch (and the written expression would in any case miss .jpeg files).
The claim that the recursive mode returns the image set rather than failing
is therefore false of the code. -/
theorem collect_image_files_spec_and_recursive_failure :
    (∀ root : FSTree, collect_all_image_files root = none) ∧
    (∀ (root_dir : String) (entries : List DirEntry) (p : String),
      p ∈ collect_image_files root_dir entries ↔
        ∃ e, e ∈ entries ∧ e.isFile = true ∧ hasValidExt e.name = true ∧
          p = root_dir ++ "/" ++ e.name) := by
  constructor
  · intro root
    rfl
  · intro root_dir entries p
    rw [collect_image_files, collect_image_files_go, List.nil_append]
    simp only [List.mem_map, List.mem_filter, Bool.and_eq_true]
    constructor
    · rintro ⟨e, ⟨he, hf, hx⟩, hp⟩
      exact ⟨e, he, hf, hx, hp.symm⟩
    · rintro ⟨e, he, hf, hx, hp⟩
      exact ⟨e, ⟨he, hf, hx⟩, hp.symm⟩

/-- C5: for a decodable source image of positive dimensions, the output
canvas is exactly the configured target size; the scaled image's dimensions
are the truncations of original * min(W/orig_W, H/orig_H) and fit inside
the canvas; it is pasted at offsets ((W - new_W) / 2, (H - new_H) / 2)
(floor division); every canvas pixel outside the pasted rectangle is the
fill color, and every pixel inside comes from the resampled image. -/
theorem resize_with_aspect_ratio_geometry (resample : Resampler) (img : PILImage)
    (tw th : Nat) (bg : Color) (hw : 0 < img.width) (hh : 0 < img.height) :
    (resize_with_aspect_ratio resample img (tw, th) bg).width = tw ∧
    (resize_with_aspect_ratio resample img (tw, th) bg).height = th ∧
    new_width img (tw, th) =
      (⌊(img.width : ℚ) *
        min ((tw : ℚ) / (img.width : ℚ)) ((th : ℚ) / (img.height : ℚ))⌋).toNat ∧
    new_height img (tw, th) =
      (⌊(img.height : ℚ) *
        min ((tw : ℚ) / (img.width : ℚ)) ((th : ℚ) / (img.height : ℚ))⌋).toNat ∧
    new_width img (tw, th) ≤ tw ∧
    new_height img (tw, th) ≤ th ∧
    offset_x img (tw, th) = (tw - new_width img (tw, th)) / 2 ∧
    offset_y img (tw, th) = (th - new_height img (tw, th)) / 2 ∧
    (∀ x y : Nat,
      ¬(offset_x img (tw, th) ≤ x ∧ x < offset_x img (tw, th) + new_width img (tw, th) ∧
        offset_y img (tw, th) ≤ y ∧ y < offset_y img (tw, th) + new_height img (tw, th)) →
      (resize_with_aspect_ratio resample img (tw, th) bg).px x y = bg) ∧
    (∀ x y : Nat,
      (offset_x img (tw, th) ≤ x ∧ x < offset_x img (tw, th) + new_width img (tw, th) ∧
        offset_y img (tw, th) ≤ y ∧ y < offset_y img (tw, th) + new_height img (tw, th)) →
      (resize_with_aspect_ratio resample img (tw, th) bg).px x y =
        resample img (new_width img (tw, th), new_height img (tw, th))
          (x - offset_x img (tw, th)) (y - offset_y img (tw, th))) := by
  refine ⟨rfl, rfl, rfl, rfl, new_width_le img (tw, th) hw,
    new_height_le img (tw, th) hh, rfl, rfl, ?_, ?_⟩
  · intro x y hx
    simp only [resize_with_aspect_ratio, PILImage.paste, imageNew, PILImage.resize]
    rw [if_neg hx]
  · intro x y hx
    simp only [resize_with_aspect_ratio, PILImage.paste, imageNew, PILImage.resize]
    rw [if_pos hx]

/-- Witness for C5 at a concrete 4-by-2 image and 8-by-8 target. -/
theorem resize_with_aspect_ratio_geometry_witness :
    (resize_with_aspect_ratio (fun _ _ _ _ => (7, 7, 7)) (PILImage.mk 4 2 (fun _ _ => (0, 0, 0)))
      (8, 8) (1, 2, 3)).width = 8 :=
  (resize_with_aspect_ratio_geometry (fun _ _ _ _ => (7, 7, 7))
    (PILImage.mk 4 2 (fun _ _ => (0, 0, 0))) 8 8 (1, 2, 3)
    (by decide) (by decide)).1

/-- C6: the coordinator partitions the input sequence into consecutive
batches: their concatenation is the input, every batch is nonempty with at
most B items, every batch except the last has exactly B items, and when B
does not divide n the final batch has n mod B items.  The concrete run
shows the scenario of the claim: three matching images with batch size 2
produce commits for batch 0 (two items) and batch 1 (the single leftover
item), the partial final batch being committed and its source reclaimed
exactly like a full one. -/
theorem process_and_store_batching (B : Nat) (l : List String) (hB : 0 < B) :
    (chunks B l).flatten = l ∧
    (∀ c ∈ chunks B l, c ≠ [] ∧ c.length ≤ B) ∧
    (∀ c ∈ (chunks B l).dropLast, c.length = B) ∧
    (l ≠ [] → ∃ c, (chunks B l).getLast? = some c ∧
      c.length = (if l.length % B = 0 then B else l.length % B)) ∧
    (process_and_store envNoSidecarCommit
        ["123456_p0.jpg", "123456_p1.jpg", "1234567_p0.png"] 2).2 =
      [Event.putBlob "123456_p0.jpg", Event.removeSrc "123456_p0.jpg",
        Event.putBlob "123456_p1.jpg", Event.removeSrc "123456_p1.jpg",
        Event.commitLmdb 0,
        Event.putBlob "1234567_p0.png", Event.removeSrc "1234567_p0.png",
        Event.commitLmdb 1] ∧
    (process_and_store envNoSidecarCommit
        ["123456_p0.jpg", "123456_p1.jpg", "1234567_p0.png"] 2).1.lmdb =
      [("123456_p0.jpg", "123456_p0.jpg"), ("123456_p1.jpg", "123456_p1.jpg"),
        ("1234567_p0.png", "1234567_p0.png")] ∧
    (process_and_store envNoSidecarCommit
        ["123456_p0.jpg", "123456_p1.jpg", "1234567_p0.png"] 2).1.disk = [] := by
  have hB' : B ≠ 0 := Nat.pos_iff_ne_zero.mp hB
  exact ⟨chunks_flatten_fuel B hB' l.length l (Nat.le_refl _),
    chunks_sizes_fuel B hB' l.length l (Nat.le_refl _),
    chunks_dropLast_fuel B hB' l.length l (Nat.le_refl _),
    chunks_getLast_fuel B hB' l.length l (Nat.le_refl _),
    by decide, by decide, by decide⟩

/-- Witness for C6 at batch size 2 and three items. -/
theorem process_and_store_batching_witness :
    (chunks 2 ["a", "b", "c"]).flatten = ["a", "b", "c"] :=
  (process_and_store_batching 2 ["a", "b", "c"] (by decide)).1

/-- C7 counterexample: for a valid ISO-8601 timestamp with a trailing Z the
stored value is not the bare canonical YYYY-MM-DD HH:MM:SS form the claim
demands - isoformat appends the +00:00 offset for the aware datetime the
Z-replacement produces. -/
theorem parse_datetime_z_not_bare :
    parse_datetime (JVal.str "2021-01-02T03:04:05Z") =
      some "2021-01-02 03:04:05+00:00" ∧
    some "2021-01-02 03:04:05+00:00" ≠ some "2021-01-02 03:04:05" := by
  exact ⟨by decide, by decide⟩

/-- C7 amended: a parsable timestamp string is normalized to
isoformat(sep=' ', timespec='seconds'), which is the bare
YYYY-MM-DD HH:MM:SS form exactly when the input carries no UTC offset; an
input with a trailing Z (offset +00:00) gets "+00:00" appended to the bare
form.  An unparsable string or an absent (null) value yields null, and the
rest of the record is still produced (shown for a record whose create_date
is unparsable). -/
theorem parse_datetime_normalization (s : String) (dt : PyDatetime)
    (h1 : fromisoformat (pyReplace s "Z" "+00:00") = some dt) (h2 : s ≠ "") :
    parse_datetime (JVal.str s) = some dt.isoformat ∧
    (dt.tzoffset = none → parse_datetime (JVal.str s) = some dt.basicFormat) ∧
    (dt.tzoffset = some 0 →
      parse_datetime (JVal.str s) = some (dt.basicFormat ++ "+00:00")) ∧
    (∀ t : String, fromisoformat (pyReplace t "Z" "+00:00") = none →
      parse_datetime (JVal.str t) = none) ∧
    parse_datetime JVal.null = none ∧
    (parse_json (some (JVal.obj [("create_date", JVal.str "not a date")]))).map
      (fun r => (r.create_date, r.id, r.tags)) = some (none, JVal.null, "") := by
  have hs : (s != "") = true := bne_iff_ne.mpr h2
  have hmain : parse_datetime (JVal.str s) = some dt.isoformat := by
    simp only [parse_datetime, pyTruthy, hs, if_true, h1, Option.map_some']
  refine ⟨hmain, ?_, ?_, ?_, rfl, rfl⟩
  · intro hoff
    rw [hmain, PyDatetime.isoformat, hoff, offsetSuffix, String.append_empty]
  · intro hoff
    rw [hmain, PyDatetime.isoformat, hoff]
    rfl
  · intro t ht
    by_cases htne : (t != "") = true
    · simp only [parse_datetime, pyTruthy, htne, if_true, ht, Option.map_none']
    · simp only [parse_datetime, pyTruthy, htne, if_false]
      simp at htne
      simp [htne]

/-- Witness for C7 at the trailing-Z timestamp. -/
theorem parse_datetime_normalization_witness :
    parse_datetime (JVal.str "2021-01-02T03:04:05Z") =
      some ((PyDatetime.mk 2021 1 2 3 4 5 (some 0)).basicFormat ++ "+00:00") :=
  (parse_datetime_normalization "2021-01-02T03:04:05Z"
    (PyDatetime.mk 2021 1 2 3 4 5 (some 0)) (by decide) (by decide)).2.2.1 rfl

theorem asStrList_map_str : ∀ ts : List String, asStrList (ts.map JVal.str) = some ts := by
  intro ts
  induction ts with
  | nil => rfl
  | cons a rest ih => simp [asStrList, ih]

theorem pyJoin_strs (sep : String) (ts : List String) :
    pyJoin sep (JVal.arr (ts.map JVal.str)) = Except.ok (String.intercalate sep ts) := by
  simp [pyJoin, asStrList_map_str]

/-- C8: the extracted record's tags field is the comma-join of the sidecar's
list-of-strings tags value; an empty list and an absent tags field both
yield the empty string (not null), and the list ["a","b"] yields the
literal string "a,b". -/
theorem parse_json_tags_join :
    (∀ ts : List String,
      (parse_json (some (JVal.obj [("tags", JVal.arr (ts.map JVal.str))]))).map
        MetadataRecord.tags = some (String.intercalate "," ts)) ∧
    (parse_json (some (JVal.obj []))).map MetadataRecord.tags = some "" ∧
    (parse_json (some (JVal.obj [("tags", JVal.arr [])]))).map MetadataRecord.tags =
      some "" ∧
    (parse_json (some (JVal.obj [("tags", JVal.arr [JVal.str "a", JVal.str "b"])]))).map
      MetadataRecord.tags = some "a,b" := by
  refine ⟨?_, rfl, rfl, rfl⟩
  intro ts
  simp [parse_json, jget, jgetN, lookupJ, pyJoin_strs]

/-- C9 counterexample: payloads that do parse as structured data for which
parse_json still returns no record, contradicting the claimed "only if":
a JSON array payload (metadata.get raises AttributeError), a tags value
that is not joinable (",".join raises TypeError and the whole record is
dropped instead of degrading that field to null), and a null user value
(None.get raises AttributeError). -/
theorem parse_json_drops_parseable_payload :
    parse_json (some (JVal.arr [])) = none ∧
    parse_json (some (JVal.obj [("tags", JVal.num 0)])) = none ∧
    parse_json (some (JVal.obj [("user", JVal.null)])) = none := by
  exact ⟨rfl, rfl, rfl⟩

/-- C9 amended: parse_json returns no record exactly when the payload is
unparsable (none) or the field projection raises: the payload is not an
object, its user value is not an object, or its tags value is not joinable.
For every payload that projects, absent fields degrade to null (and tags to
the empty string), shown for the empty object. -/
theorem parse_json_none_characterization :
    (∀ p : Option JVal, parse_json p = none ↔
      (p = none ∨ ∃ v, p = some v ∧ projFails v = true)) ∧
    (parse_json (some (JVal.obj []))).map
      (fun r => (r.id, r.title, r.user_name, r.tags, r.create_date, r.date)) =
      some (JVal.null, JVal.null, JVal.null, "", none, none) := by
  refine ⟨?_, rfl⟩
  intro p
  match p with
  | none => simp [parse_json]
  | some v =>
    cases v with
    | null => simp [parse_json, projFails]
    | bool b => simp [parse_json, projFails]
    | num n => simp [parse_json, projFails]
    | str s => simp [parse_json, projFails]
    | arr xs => simp [parse_json, projFails]
    | obj kvs =>
      cases hU : jget kvs "user" (JVal.obj []) with
      | obj user =>
        cases hJ : pyJoin "," (jget kvs "tags" (JVal.arr [])) with
        | ok t => simp [parse_json, projFails, hU, hJ]
        | error e => simp [parse_json, projFails, hU, hJ]
      | null => simp [parse_json, projFails, hU]
      | bool b => simp [parse_json, projFails, hU]
      | num n => simp [parse_json, projFails, hU]
      | str s => simp [parse_json, projFails, hU]
      | arr xs => simp [parse_json, projFails, hU]

/-- C10: an item whose basename does not match the identifier pattern is
skipped with no effect at all: no LMDB put, no relational upsert, no
deletion of the image or its sidecar - the state and the event trace are
returned unchanged.  The concrete conjuncts pin the pattern itself: 6-10
digits, then _p and a page number, then a recognized extension,
case-insensitively. -/
theorem pattern_mismatch_skips_item :
    (∀ (env : Env) (st : PipeState) (evs : List Event) (p : String),
      pattern_match (basename p) = false →
        processItem env (st, evs) p = (st, evs)) ∧
    pattern_match "123456_p0.jpg" = true ∧
    pattern_match "1234567890_P3.JPEG" = true ∧
    pattern_match "12345_p0.jpg" = false ∧
    pattern_match "12345678901_p0.jpg" = false ∧
    pattern_match "123456_p0.gif" = false ∧
    pattern_match "123456.jpg" = false := by
  refine ⟨?_, by decide, by decide, by decide, by decide, by decide, by decide⟩
  intro env st evs p h
  simp [processItem, h]

/-- Witness for C10 at a non-matching path. -/
theorem pattern_mismatch_skips_item_witness :
    processItem envNoSidecarCommit (PipeState.mk ["readme.txt"] [] [] [], [])
      "readme.txt" = (PipeState.mk ["readme.txt"] [] [] [], []) :=
  pattern_mismatch_skips_item.1 envNoSidecarCommit
    (PipeState.mk ["readme.txt"] [] [] []) [] "readme.txt" (by decide)
